import Mathlib

/-!
Verification of the subscription scheduling and persistence core of the
`astrbot_plugin_daily_weather` plugin (`src/main.py`), shallowly embedded
in Lean 4.

Modelling conventions:
* A ledger `datetime` field holds a `"YYYY-MM-DD HH:MM"` string in the
  source; the source parses it with `strptime` at every point of use and
  compares the resulting naive `datetime` objects, whose order is
  lexicographic on (year, month, day, hour, minute).  The embedding
  represents the field directly by its parsed component tuple
  (`PyDateTime`) and compares lexicographically.
* Entries loaded from a hand-edited ledger may lack an `"id"` key; the
  source assigns a fresh uuid to such an entry in its first pass
  (`_init_scheduler`) before any arming decision, and every entry the
  plugin itself writes carries an id.  The embedding represents a ledger
  after this normalization: `id` is always present.
* The scheduler (APScheduler) is external; its job table is modelled as a
  list of armed `Job` records, and `add_job` / `remove_job` effects are
  made explicit.
-/

/-- The component tuple of a parsed `"%Y-%m-%d %H:%M"` timestamp
(`datetime.datetime.strptime` in the source fills exactly these fields). -/
structure PyDateTime where
  year : Nat
  month : Nat
  day : Nat
  hour : Nat
  minute : Nat
deriving DecidableEq, Repr

/-- Strict comparison of naive `datetime` values: lexicographic on
(year, month, day, hour, minute), as in Python's `datetime.__lt__`. -/
def PyDateTime.lt (a b : PyDateTime) : Bool :=
  if a.year ≠ b.year then a.year < b.year
  else if a.month ≠ b.month then a.month < b.month
  else if a.day ≠ b.day then a.day < b.day
  else if a.hour ≠ b.hour then a.hour < b.hour
  else a.minute < b.minute

/-- Python's `a <= b` on the total `datetime` order, i.e. `¬ (b < a)`.
The source's `dt >= now` is `PyDateTime.le now dt`. -/
def PyDateTime.le (a b : PyDateTime) : Bool :=
  !(PyDateTime.lt b a)

/-- One ledger entry (a JSON object in `astrbot-subscribe.json`).  Field
order follows the dict the plugin writes: `text`, `cron`, `cron_h`
(recurring entries), `datetime` (one-shot entries), `id`, `city`. -/
structure Subscription where
  text : String
  cron : Option String
  cron_h : Option String
  datetime : Option PyDateTime
  id : String
  city : String
deriving DecidableEq, Repr

instance : Inhabited Subscription :=
  ⟨{ text := "", cron := none, cron_h := none, datetime := none, id := "", city := "" }⟩

/-- The in-memory store `self.subscribe_data`: a JSON object mapping a
group key (`unified_msg_origin`) to the group's ordered entry list.
Represented as an insertion-ordered association list, like a Python dict. -/
abbrev Store := List (String × List Subscription)

/-- Python `self.subscribe_data.get(k, [])`. -/
def Store.get (st : Store) (k : String) : List Subscription :=
  match st.lookup k with
  | some v => v
  | none => []

/-- Overwrite the value at an existing key `k` (mutating the list object
obtained from `dict.get` in place mutates the dict's entry; if the key is
absent the fresh `[]` returned by `get` is not linked to the dict and the
mutation is lost, so an absent key stays absent). -/
def Store.set (st : Store) (k : String) (v : List Subscription) : Store :=
  st.map (fun p => if p.1 == k then (k, v) else p)

/-- Python `if k not in dict: dict[k] = []` followed by
`dict[k].append(d)`: append to the existing sequence, or insert a new
key at the end of the dict's insertion order. -/
def Store.insertAppend (st : Store) (k : String) (d : Subscription) : Store :=
  if st.any (fun p => p.1 == k) then
    st.map (fun p => if p.1 == k then (p.1, p.2 ++ [d]) else p)
  else
    st ++ [(k, [d])]

/-- The record of APScheduler keyword fields built by `_parse_cron_expr`. -/
structure CronFields where
  minute : String
  hour : String
  day : String
  month : String
  day_of_week : String
deriving DecidableEq, Repr

/-- `_parse_cron_expr` (src/main.py:379-405): `fields = cron_expr.split(" ")`
— Python's split on the one-character separator `" "` cuts at every
single space character and keeps empty pieces, which is exactly the
character-predicate split `String.split (· == ' ')` — followed by
indexing `fields[0] .. fields[4]`.  Indexing raises `IndexError` when
the split yields fewer than five pieces; no other validation happens,
and pieces past the fifth are silently ignored. -/
def parse_cron_expr (cron_expr : String) : Except String CronFields :=
  let fields := cron_expr.split (fun c => c == ' ')
  if h : 5 ≤ fields.length then
    .ok { minute := fields[0], hour := fields[1], day := fields[2],
          month := fields[3], day_of_week := fields[4] }
  else
    .error "IndexError: list index out of range"

/-- Modelled from the spec: the spec speaks of "whitespace-separated
fields", i.e. Python `str.split()` with no argument — split on runs of
whitespace, dropping empty pieces.  Used only to state the spec's side of
claim C1 against the source's single-space split. -/
def wsFields (s : String) : List String :=
  (s.split (fun c => c.isWhitespace)).filter (fun t => t ≠ "")

/-- `check_is_outdated` (src/main.py:159-175): a one-shot entry is
outdated iff its timestamp is strictly before now; entries without a
`datetime` key are never outdated. -/
def check_is_outdated (s : Subscription) (now : PyDateTime) : Bool :=
  match s.datetime with
  | some dt => PyDateTime.lt dt now
  | none => false

/-- `get_upcoming_subscribe` (src/main.py:545-560): the group's entries
whose `datetime` is absent or `>= now`; `dict.get(origin, [])` yields
`[]` for an absent group (and the empty list short-circuits). -/
def get_upcoming_subscribe (st : Store) (now : PyDateTime) (origin : String) :
    List Subscription :=
  let subscribe := Store.get st origin
  if subscribe.isEmpty then []
  else
    subscribe.filter (fun s =>
      match s.datetime with
      | none => true
      | some dt => PyDateTime.le now dt)

/-- A trigger kind passed to `scheduler.add_job`: a `"date"` trigger with
its `run_date`, or a `"cron"` trigger with the parsed cron fields. -/
inductive Trigger where
  | date (runDate : PyDateTime)
  | cron (fields : CronFields)
deriving DecidableEq, Repr

/-- An armed APScheduler job as created by this plugin's `add_job` calls:
the job id, the trigger, the `misfire_grace_time` keyword, and the
callback arguments `[group, subscribe]` captured by the closure. -/
structure Job where
  id : String
  trigger : Trigger
  graceTime : Nat
  group : String
  sub : Subscription
deriving DecidableEq, Repr

/-- One loop body of `_init_scheduler` (src/main.py:129-157) for a single
entry: a one-shot (`datetime` present) entry is skipped when outdated and
otherwise armed as a `date` job with `misfire_grace_time=60`; otherwise an
entry with a `cron` key is armed as a `cron` job with
`misfire_grace_time=60`, where a failing `_parse_cron_expr` propagates;
an entry with neither key arms nothing. -/
def arm_sub (group : String) (now : PyDateTime) (s : Subscription) :
    Except String (Option Job) :=
  match s.datetime with
  | some dt =>
      if check_is_outdated s now then .ok none
      else .ok (some { id := s.id, trigger := .date dt, graceTime := 60,
                       group := group, sub := s })
  | none =>
      match s.cron with
      | some c =>
          (parse_cron_expr c).map (fun f =>
            some { id := s.id, trigger := .cron f, graceTime := 60,
                   group := group, sub := s })
      | none => .ok none

/-- The inner loop of `_init_scheduler` over one group's entry list, in
order, collecting the armed jobs. -/
def init_group (group : String) (now : PyDateTime) :
    List Subscription → Except String (List Job)
  | [] => .ok []
  | s :: rest =>
      match arm_sub group now s with
      | .error e => .error e
      | .ok none => init_group group now rest
      | .ok (some j) => (init_group group now rest).map (fun js => j :: js)

/-- `_init_scheduler` (src/main.py:119-157): iterate the loaded store in
insertion order, arming jobs per `arm_sub`.  The store itself is not
mutated and nothing is persisted (`_save_data` is never called here). -/
def init_scheduler (now : PyDateTime) : Store → Except String (List Job)
  | [] => .ok []
  | (g, subs) :: rest =>
      match init_group g now subs with
      | .error e => .error e
      | .ok js => (init_scheduler now rest).map (fun js' => js ++ js')

/-- Outcome of the `weather_subscribe` command handler: the store after
the in-memory append, the scheduler job table, the handler's result (the
success reply, or the propagated exception text), and whether
`_save_data` was reached. -/
structure SubscribeOutcome where
  store : Store
  jobs : List Job
  result : Except String String
  persisted : Bool
deriving Repr

/-- `weather_subscribe` (src/main.py:308-377), below the external LLM
calls: `city`, `cron_expression` and `human_readable_cron` are the
already-interpreted inputs (defaults or provider output) and `newId` the
fresh `uuid4`.  The handler builds the dict `d`, appends it to the
group's list, calls `scheduler.add_job` (which evaluates
`_parse_cron_expr(cron_expression)`; an `IndexError` there propagates
after the append but before `_save_data`), then persists and replies. -/
def weather_subscribe (st : Store) (jobs : List Job) (origin : String)
    (city cron_expression human_readable_cron newId : String) : SubscribeOutcome :=
  let d : Subscription :=
    { text := "天气预报", cron := some cron_expression,
      cron_h := some human_readable_cron, datetime := none,
      id := newId, city := city }
  let st' := Store.insertAppend st origin d
  match parse_cron_expr cron_expression with
  | .error e =>
      { store := st', jobs := jobs, result := .error e, persisted := false }
  | .ok f =>
      { store := st',
        jobs := jobs ++ [{ id := newId, trigger := .cron f, graceTime := 60,
                           group := origin, sub := d }],
        result := .ok (human_readable_cron ++ " 订阅成功"),
        persisted := true }

/-- APScheduler `remove_job`: removes the job with the given id, raising
`JobLookupError` when no such job exists. -/
def sched_remove_job (jobs : List Job) (jobId : String) :
    Except String (List Job) :=
  if jobs.any (fun j => j.id == jobId) then
    .ok (jobs.filter (fun j => !(j.id == jobId)))
  else
    .error ("No job by the id of " ++ jobId ++ " was found")

/-- The in-place removal loop of `subscribe_rm` (src/main.py:530-533):
`for i, s in enumerate(users_subscribe): if s.get("id") == job_id:
users_subscribe.pop(i)`.  The cursor `i` advances every iteration over
the live, mutated list, so popping at `i` causes the element that slides
into position `i` to be skipped. -/
def rmLoop (jobId : String) (i : Nat) (cur : List Subscription) :
    List Subscription :=
  if h : i < cur.length then
    if (cur.get ⟨i, h⟩).id == jobId then
      rmLoop jobId (i + 1) (cur.eraseIdx i)
    else
      rmLoop jobId (i + 1) cur
  else cur
termination_by cur.length - i
decreasing_by
  · have : (cur.eraseIdx i).length = cur.length - 1 := by
      simp [List.length_eraseIdx, h]
    omega
  · omega

/-- Outcome of the `subscribe_rm` command handler: the store, the
scheduler job table, the ordered user-facing replies (`yield
event.plain_result(...)` calls), and whether `_save_data` was reached. -/
structure RmOutcome where
  store : Store
  jobs : List Job
  messages : List String
  persisted : Bool
deriving DecidableEq, Repr

/-- `subscribe_rm` (src/main.py:499-543): recompute the upcoming view;
an empty view or an out-of-range 1-based index replies with the
corresponding error text and mutates nothing; otherwise the entry at the
index in the upcoming view is removed from the full stored sequence by
id (via the in-place loop), `scheduler.remove_job` is attempted and a
failure is logged and reported in an extra reply, and the ledger is
persisted in both cases before the success reply. -/
def subscribe_rm (st : Store) (jobs : List Job) (now : PyDateTime)
    (origin : String) (index : Int) : RmOutcome :=
  let upcoming := get_upcoming_subscribe st now origin
  if upcoming.isEmpty then
    { store := st, jobs := jobs, messages := ["没有待办事项。"], persisted := false }
  else if index < 1 ∨ index > upcoming.length then
    { store := st, jobs := jobs, messages := ["索引越界。"], persisted := false }
  else
    let sub := upcoming.getD (index - 1).toNat default
    let jobId := sub.id
    let users := Store.get st origin
    let users' := rmLoop jobId 0 users
    let st' := Store.set st origin users'
    match sched_remove_job jobs jobId with
    | .ok jobs' =>
        { store := st', jobs := jobs',
          messages := ["成功删除待办事项：\n" ++ sub.text],
          persisted := true }
    | .error e =>
        { store := st', jobs := jobs,
          messages := ["成功移除对应的待办事项。删除定时任务失败: " ++ e ++
                         " 可能需要重启 AstrBot 以取消该提醒任务。",
                       "成功删除待办事项：\n" ++ sub.text],
          persisted := true }

/-- `use_LLM` (src/main.py:178-232): the whole body sits in a
`try/except`; on provider success the completion text replaces `result`,
on any exception the original `result` is returned unchanged. -/
def use_LLM (result : String) (provider : Except String String) : String :=
  match provider with
  | .ok t => t
  | .error _ => result

/-- What a firing of `_subscribe_callback` produced. -/
inductive CallbackResult where
  | fetchFailed
  | delivered (content : String)
  | errorLogged (e : String)
deriving DecidableEq, Repr

/-- The body of the `try` block of `_subscribe_callback`
(src/main.py:435-462).  External collaborators enter as outcomes:
`fetch` is `get_future_weather_by_city` (total: its own `try/except`
returns `None` on any error), with each list element an opaque forecast
record; `render` the `render_current_weather` call (undefined in
src/main.py, so at runtime it raises; modelled as an arbitrary outcome);
`fmtw` the pure templating function `format_weather_info` applied to the
city and the first record; `llm` the provider outcome inside `use_LLM`;
`send` the outcome of the one `context.send_message` call.  In text mode
`data[0]` raises `IndexError` on an empty list. -/
def callback_body (send_mode : String) (fetch : Option (List String))
    (render : Except String String) (llm : Except String String)
    (fmtw : String → String) (send : Except String Unit) :
    Except String CallbackResult :=
  match fetch with
  | none => .ok .fetchFailed
  | some data =>
      if send_mode == "image" then
        match render with
        | .error e => .error e
        | .ok url =>
            match send with
            | .error e => .error e
            | .ok _ => .ok (.delivered url)
      else
        match data with
        | [] => .error "IndexError: list index out of range"
        | d0 :: _ =>
            let enhanced := use_LLM (fmtw d0) llm
            match send with
            | .error e => .error e
            | .ok _ => .ok (.delivered enhanced)

/-- `_subscribe_callback` (src/main.py:407-465): the body runs inside
`try: ... except Exception as e: logger.error(...)`, so every exception
of the body is caught and logged; the handler itself never raises and
never retries. -/
def subscribe_callback (send_mode : String) (fetch : Option (List String))
    (render : Except String String) (llm : Except String String)
    (fmtw : String → String) (send : Except String Unit) :
    Except String CallbackResult :=
  match callback_body send_mode fetch render llm fmtw send with
  | .error e => .ok (.errorLogged e)
  | .ok r => .ok r

/-- Modelled from the spec: the scheduling engine (APScheduler) is
external to src/; per the spec's misfire contract, a trigger due at
`scheduled` (seconds) still fires when the process is back at `restart`
with `restart ≤ scheduled + grace`, and is dropped without firing and
without error beyond that. -/
def misfire_fires (scheduled restart grace : Nat) : Bool :=
  restart ≤ scheduled + grace

/-- A JSON value, the codomain of `json.dump` / domain of `json.load`
restricted to the shapes this plugin writes and reads. -/
inductive JVal where
  | str : String → JVal
  | arr : List JVal → JVal
  | obj : List (String × JVal) → JVal
deriving Repr

/-- Zero-padded two-digit rendering, as `strftime`'s `%m %d %H %M`. -/
def pad2 (n : Nat) : String :=
  if n < 10 then "0" ++ toString n else toString n

/-- Render a timestamp back to its ledger string `"%Y-%m-%d %H:%M"`. -/
def fmtDT (d : PyDateTime) : String :=
  toString d.year ++ "-" ++ pad2 d.month ++ "-" ++ pad2 d.day ++ " " ++
    pad2 d.hour ++ ":" ++ pad2 d.minute

/-- Parse a ledger `"%Y-%m-%d %H:%M"` string (as
`datetime.strptime(s, "%Y-%m-%d %H:%M")` does) into its components. -/
def parseDT (s : String) : Option PyDateTime :=
  match s.splitOn " " with
  | [datePart, timePart] =>
      match datePart.splitOn "-", timePart.splitOn ":" with
      | [y, mo, d], [h, mi] =>
          match y.toNat?, mo.toNat?, d.toNat?, h.toNat?, mi.toNat? with
          | some y', some mo', some d', some h', some mi' =>
              some { year := y', month := mo', day := d', hour := h', minute := mi' }
          | _, _, _, _, _ => none
      | _, _ => none
  | _ => none

/-- Serialize one entry to the JSON object `_save_data`'s `json.dump`
writes for it: the entry's fields in dict order, optional keys omitted
when absent, the timestamp rendered as its ledger string. -/
def encodeSub (s : Subscription) : JVal :=
  .obj ([("text", JVal.str s.text)] ++
        (match s.cron with | some c => [("cron", JVal.str c)] | none => []) ++
        (match s.cron_h with | some h => [("cron_h", JVal.str h)] | none => []) ++
        (match s.datetime with
         | some dt => [("datetime", JVal.str (fmtDT dt))]
         | none => []) ++
        [("id", JVal.str s.id), ("city", JVal.str s.city)])

/-- `_save_data` (src/main.py:562-566): `json.dump(self.subscribe_data)`
— the whole ledger as one JSON object, groups in insertion order, each
group's entries in sequence order. -/
def save_data (st : Store) : JVal :=
  .obj (st.map (fun p => (p.1, JVal.arr (p.2.map encodeSub))))

/-- Read a string field of a JSON object. -/
def asStr : Option JVal → Option String
  | some (.str s) => some s
  | _ => none

/-- Decode one entry object back into the fields the plugin reads:
`text`, `id`, `city` (required in every entry the plugin writes),
optional `cron`, `cron_h`, and an optional `datetime` string parsed with
the ledger format. -/
def decodeSub : JVal → Option Subscription
  | .obj fs =>
      match asStr (fs.lookup "text"), asStr (fs.lookup "id"),
            asStr (fs.lookup "city") with
      | some text, some id, some city =>
          let cron := asStr (fs.lookup "cron")
          let cron_h := asStr (fs.lookup "cron_h")
          match fs.lookup "datetime" with
          | none =>
              some { text := text, cron := cron, cron_h := cron_h,
                     datetime := none, id := id, city := city }
          | some (.str ds) =>
              match parseDT ds with
              | some dt =>
                  some { text := text, cron := cron, cron_h := cron_h,
                         datetime := some dt, id := id, city := city }
              | none => none
          | some _ => none
      | _, _, _ => none
  | _ => none

/-- Decode a JSON array of entry objects, in order. -/
def decodeSubs : List JVal → Option (List Subscription)
  | [] => some []
  | j :: rest =>
      match decodeSub j, decodeSubs rest with
      | some s, some l => some (s :: l)
      | _, _ => none

/-- Decode the JSON object fields of a loaded ledger, in order. -/
def decodePairs : List (String × JVal) → Option Store
  | [] => some []
  | (k, v) :: rest =>
      match v with
      | .arr es =>
          match decodeSubs es, decodePairs rest with
          | some subs, some st => some ((k, subs) :: st)
          | _, _ => none
      | _ => none

/-- `json.load` of the ledger file at startup (src/main.py:113-114),
read back into the store shape the plugin uses. -/
def load_data : JVal → Option Store
  | .obj fs => decodePairs fs
  | _ => none

theorem Store.get_cons (a : String) (b : List Subscription) (rest : Store)
    (k : String) :
    Store.get ((a, b) :: rest) k = if a == k then b else Store.get rest k := by
  unfold Store.get
  by_cases hak : a = k
  · subst hak; simp [List.lookup]
  · have h1 : (a == k) = false := beq_eq_false_iff_ne.mpr hak
    have h2 : (k == a) = false := beq_eq_false_iff_ne.mpr (Ne.symm hak)
    simp [List.lookup, h1, h2]

theorem Store.get_of_any_eq_false (st : Store) (k : String)
    (h : st.any (fun p => p.1 == k) = false) : Store.get st k = [] := by
  induction st with
  | nil => rfl
  | cons p rest ih =>
      obtain ⟨a, b⟩ := p
      simp only [List.any_cons, Bool.or_eq_false_iff] at h
      rw [Store.get_cons, if_neg (by simp [h.1]), ih h.2]

theorem Store.any_of_get_ne_nil (st : Store) (k : String)
    (h : Store.get st k ≠ []) : st.any (fun p => p.1 == k) = true := by
  cases ha : st.any (fun p => p.1 == k) with
  | true => rfl
  | false => exact absurd (Store.get_of_any_eq_false st k ha) h

theorem Store.get_set (st : Store) (k : String) (w : List Subscription)
    (h : st.any (fun p => p.1 == k) = true) :
    Store.get (Store.set st k w) k = w := by
  induction st with
  | nil => simp at h
  | cons p rest ih =>
      obtain ⟨a, b⟩ := p
      by_cases hak : a = k
      · subst hak
        unfold Store.set
        simp [Store.get_cons]
      · have h1 : (a == k) = false := beq_eq_false_iff_ne.mpr hak
        simp only [List.any_cons, h1, Bool.false_or] at h
        unfold Store.set at *
        simp only [List.map_cons, h1, Bool.false_eq_true, if_false]
        rw [Store.get_cons, if_neg (by simp [h1]), ih h]

theorem Store.get_map_append (st : Store) (k : String) (d : Subscription)
    (h : st.any (fun p => p.1 == k) = true) :
    Store.get (st.map (fun p => if p.1 == k then (p.1, p.2 ++ [d]) else p)) k
      = Store.get st k ++ [d] := by
  induction st with
  | nil => simp at h
  | cons p rest ih =>
      obtain ⟨a, b⟩ := p
      by_cases hak : a = k
      · subst hak
        simp [Store.get_cons]
      · have h1 : (a == k) = false := beq_eq_false_iff_ne.mpr hak
        simp only [List.any_cons, h1, Bool.false_or] at h
        simp only [List.map_cons, h1, Bool.false_eq_true, if_false]
        rw [Store.get_cons, if_neg (by simp [h1]), Store.get_cons,
          if_neg (by simp [h1]), ih h]

theorem Store.get_append_new (st : Store) (k : String) (d : Subscription)
    (h : st.any (fun p => p.1 == k) = false) :
    Store.get (st ++ [(k, [d])]) k = [d] := by
  induction st with
  | nil => simp [Store.get_cons]
  | cons p rest ih =>
      obtain ⟨a, b⟩ := p
      simp only [List.any_cons, Bool.or_eq_false_iff] at h
      rw [List.cons_append, Store.get_cons, if_neg (by simp [h.1]), ih h.2]

theorem Store.get_insertAppend (st : Store) (k : String) (d : Subscription) :
    Store.get (Store.insertAppend st k d) k = Store.get st k ++ [d] := by
  unfold Store.insertAppend
  cases h : st.any (fun p => p.1 == k) with
  | true =>
      simp only [if_pos rfl]
      exact Store.get_map_append st k d h
  | false =>
      simp only [Bool.false_eq_true, if_false]
      rw [Store.get_append_new st k d h, Store.get_of_any_eq_false st k h]
      rfl

/-- The upcoming-view predicate of `get_upcoming_subscribe`. -/
def upPred (now : PyDateTime) (s : Subscription) : Bool :=
  match s.datetime with
  | none => true
  | some dt => PyDateTime.le now dt

theorem get_upcoming_eq_filter (st : Store) (now : PyDateTime) (g : String) :
    get_upcoming_subscribe st now g = (Store.get st g).filter (upPred now) := by
  unfold get_upcoming_subscribe
  cases h : (Store.get st g).isEmpty with
  | true => rw [List.isEmpty_iff.mp h]; simp
  | false =>
      simp only [h, Bool.false_eq_true, if_false]
      rfl

/-- Structural form of `rmLoop` starting at cursor 0: removing the
element under the cursor makes the next element slide under the cursor
and be skipped unexamined. -/
def rmAux (jobId : String) : List Subscription → List Subscription
  | [] => []
  | s :: rest =>
      if s.id == jobId then
        match rest with
        | [] => []
        | t :: rest' => t :: rmAux jobId rest'
      else s :: rmAux jobId rest

theorem rmAux_nil (jobId : String) : rmAux jobId [] = [] := rfl

theorem rmAux_cons_false (jobId : String) (s : Subscription)
    (rest : List Subscription) (hs : (s.id == jobId) = false) :
    rmAux jobId (s :: rest) = s :: rmAux jobId rest := by
  rw [rmAux.eq_def]
  simp [hs]

theorem rmAux_cons_true_nil (jobId : String) (s : Subscription)
    (hs : (s.id == jobId) = true) : rmAux jobId [s] = [] := by
  rw [rmAux.eq_def]
  simp [hs]

theorem rmAux_cons_true_cons (jobId : String) (s t : Subscription)
    (r : List Subscription) (hs : (s.id == jobId) = true) :
    rmAux jobId (s :: t :: r) = t :: rmAux jobId r := by
  rw [rmAux.eq_def]
  simp [hs]

theorem rmLoop_eq_take_append_rmAux (jobId : String) :
    ∀ (n i : Nat) (cur : List Subscription), cur.length - i ≤ n →
      rmLoop jobId i cur = cur.take i ++ rmAux jobId (cur.drop i) := by
  intro n
  induction n with
  | zero =>
      intro i cur hn
      have hle : cur.length ≤ i := by omega
      rw [rmLoop, dif_neg (by omega), List.take_of_length_le hle,
        List.drop_eq_nil_of_le hle]
      simp [rmAux_nil]
  | succ n ih =>
      intro i cur hn
      by_cases h : i < cur.length
      · rw [rmLoop, dif_pos h]
        have hti : (cur.take i).length = i := List.length_take_of_le (by omega)
        by_cases hid : ((cur.get ⟨i, h⟩).id == jobId) = true
        · rw [if_pos hid]
          have hlen : (cur.eraseIdx i).length = cur.length - 1 := by
            simp [List.length_eraseIdx, h]
          rw [ih (i + 1) (cur.eraseIdx i) (by omega)]
          rw [List.eraseIdx_eq_take_drop_succ]
          have htake : (cur.take i ++ cur.drop (i + 1)).take ((cur.take i).length + 1)
              = cur.take i ++ (cur.drop (i + 1)).take 1 := List.take_append 1
          rw [hti] at htake
          have hdrop : (cur.take i ++ cur.drop (i + 1)).drop ((cur.take i).length + 1)
              = (cur.drop (i + 1)).drop 1 := List.drop_append 1
          rw [hti] at hdrop
          rw [htake, hdrop, List.drop_eq_getElem_cons h]
          have hid' : (cur[i].id == jobId) = true := hid
          cases hD : cur.drop (i + 1) with
          | nil => simp [rmAux_nil, rmAux_cons_true_nil jobId _ hid']
          | cons t r => simp [rmAux_cons_true_cons jobId _ _ _ hid']
        · rw [if_neg hid]
          rw [ih (i + 1) cur (by omega)]
          rw [Bool.not_eq_true] at hid
          have hid' : (cur[i].id == jobId) = false := hid
          conv_rhs => rw [List.drop_eq_getElem_cons h,
            rmAux_cons_false jobId cur[i] (cur.drop (i + 1)) hid']
          rw [show cur[i] :: rmAux jobId (cur.drop (i + 1))
              = [cur[i]] ++ rmAux jobId (cur.drop (i + 1)) from rfl]
          rw [← List.append_assoc]
          congr 1
          rw [List.take_succ, List.getElem?_eq_getElem h]
          simp
      · have hle : cur.length ≤ i := by omega
        rw [rmLoop, dif_neg (by omega), List.take_of_length_le hle,
          List.drop_eq_nil_of_le hle]
        simp [rmAux_nil]

theorem rmLoop_zero_eq_rmAux (jobId : String) (cur : List Subscription) :
    rmLoop jobId 0 cur = rmAux jobId cur := by
  have h := rmLoop_eq_take_append_rmAux jobId cur.length 0 cur (by omega)
  simpa using h

theorem rmAux_of_countP_eq_zero (jobId : String) (l : List Subscription)
    (h : l.countP (fun s => s.id == jobId) = 0) : rmAux jobId l = l := by
  induction l with
  | nil => rfl
  | cons s rest ih =>
      have hs : (s.id == jobId) = false := by
        cases hb : s.id == jobId with
        | true =>
            rw [List.countP_cons_of_pos _ _ (by simpa using hb)] at h
            omega
        | false => rfl
      rw [List.countP_cons_of_neg _ _ (by simp [hs])] at h
      simp [rmAux_cons_false jobId s rest hs, ih h]

theorem countP_id_le_one_of_nodup (jobId : String) (l : List Subscription)
    (h : (l.map Subscription.id).Nodup) :
    l.countP (fun s => s.id == jobId) ≤ 1 := by
  induction l with
  | nil => simp
  | cons s rest ih =>
      simp only [List.map_cons, List.nodup_cons] at h
      by_cases hs : (s.id == jobId) = true
      · have hz : rest.countP (fun s => s.id == jobId) = 0 := by
          rw [List.countP_eq_zero]
          intro a ha hax
          have h1 : a.id = jobId := by simpa using hax
          have h2 : s.id = jobId := by simpa using hs
          exact h.1 (by rw [h2, ← h1]; exact List.mem_map_of_mem _ ha)
        rw [List.countP_cons_of_pos _ _ (by simpa using hs), hz]
      · rw [List.countP_cons_of_neg _ _ (by simp [hs])]
        exact ih h.2

theorem rmAux_of_countP_le_one (jobId : String) (l : List Subscription)
    (h : l.countP (fun s => s.id == jobId) ≤ 1) :
    rmAux jobId l = l.filter (fun s => !(s.id == jobId)) := by
  induction l with
  | nil => rfl
  | cons s rest ih =>
      by_cases hs : (s.id == jobId) = true
      · rw [List.countP_cons_of_pos _ _ (by simpa using hs)] at h
        have hz : rest.countP (fun s => s.id == jobId) = 0 := by omega
        have hfil : rest.filter (fun s => !(s.id == jobId)) = rest := by
          rw [List.filter_eq_self]
          intro a ha
          rw [List.countP_eq_zero] at hz
          simpa using hz a ha
        rw [List.filter_cons, if_neg (by simp [hs]), hfil]
        cases rest with
        | nil => exact rmAux_cons_true_nil jobId s hs
        | cons t r =>
            have hzr : r.countP (fun s => s.id == jobId) = 0 := by
              rw [List.countP_eq_zero] at hz ⊢
              intro a ha
              exact hz a (List.mem_cons_of_mem t ha)
            rw [rmAux_cons_true_cons jobId s t r hs,
              rmAux_of_countP_eq_zero jobId r hzr]
      · simp only [Bool.not_eq_true] at hs
        rw [List.countP_cons_of_neg _ _ (by simp [hs])] at h
        rw [rmAux_cons_false jobId s rest hs, ih h, List.filter_cons,
          if_pos (by simp [hs])]

theorem arm_sub_ok_some (group : String) (now : PyDateTime) (s : Subscription)
    (j : Job) (h : arm_sub group now s = .ok (some j)) :
    j.sub = s ∧ j.group = group ∧ j.graceTime = 60 ∧
      check_is_outdated s now = false := by
  unfold arm_sub at h
  cases hdt : s.datetime with
  | some dt =>
      simp only [hdt] at h
      cases hout : check_is_outdated s now with
      | true => simp [hout] at h
      | false =>
          simp only [hout, Bool.false_eq_true, if_false, Except.ok.injEq,
            Option.some.injEq] at h
          subst h
          exact ⟨rfl, rfl, rfl, rfl⟩
  | none =>
      simp only [hdt] at h
      cases hc : s.cron with
      | none => simp only [hc] at h; simp at h
      | some c =>
          simp only [hc] at h
          cases hp : parse_cron_expr c with
          | error e => rw [hp] at h; simp [Except.map] at h
          | ok f =>
              rw [hp] at h
              simp only [Except.map, Except.ok.injEq, Option.some.injEq] at h
              subst h
              refine ⟨rfl, rfl, rfl, ?_⟩
              unfold check_is_outdated
              rw [hdt]

theorem init_group_all (group : String) (now : PyDateTime)
    (subs : List Subscription) (js : List Job)
    (h : init_group group now subs = .ok js) :
    ∀ j ∈ js, ∃ s ∈ subs, arm_sub group now s = .ok (some j) := by
  induction subs generalizing js with
  | nil =>
      unfold init_group at h
      simp only [Except.ok.injEq] at h
      subst h
      intro j hj
      simp at hj
  | cons t rest ih =>
      unfold init_group at h
      cases ha : arm_sub group now t with
      | error e => rw [ha] at h; simp at h
      | ok o =>
          rw [ha] at h
          cases o with
          | none =>
              intro j hj
              obtain ⟨s, hs, hjs⟩ := ih js h j hj
              exact ⟨s, List.mem_cons_of_mem t hs, hjs⟩
          | some j0 =>
              cases hr : init_group group now rest with
              | error e => rw [hr] at h; simp [Except.map] at h
              | ok js' =>
                  rw [hr] at h
                  simp only [Except.map, Except.ok.injEq] at h
                  subst h
                  intro j hj
                  rcases List.mem_cons.mp hj with hj0 | hj'
                  · subst hj0
                    exact ⟨t, List.mem_cons_self t rest, ha⟩
                  · obtain ⟨s, hs, hjs⟩ := ih js' hr j hj'
                    exact ⟨s, List.mem_cons_of_mem t hs, hjs⟩

theorem init_group_arm (group : String) (now : PyDateTime)
    (subs : List Subscription) (js : List Job)
    (h : init_group group now subs = .ok js) (s : Subscription)
    (hs : s ∈ subs) (j : Job) (ha : arm_sub group now s = .ok (some j)) :
    j ∈ js := by
  induction subs generalizing js with
  | nil => simp at hs
  | cons t rest ih =>
      unfold init_group at h
      cases hat : arm_sub group now t with
      | error e => rw [hat] at h; simp at h
      | ok o =>
          rw [hat] at h
          rcases List.mem_cons.mp hs with hst | hsr
          · subst hst
            rw [hat] at ha
            cases o with
            | none => simp at ha
            | some j0 =>
                simp only [Except.ok.injEq, Option.some.injEq] at ha
                subst ha
                cases hr : init_group group now rest with
                | error e => rw [hr] at h; simp [Except.map] at h
                | ok js' =>
                    rw [hr] at h
                    simp only [Except.map, Except.ok.injEq] at h
                    subst h
                    exact List.mem_cons_self _ _
          · cases o with
            | none => exact ih js h hsr
            | some j0 =>
                cases hr : init_group group now rest with
                | error e => rw [hr] at h; simp [Except.map] at h
                | ok js' =>
                    rw [hr] at h
                    simp only [Except.map, Except.ok.injEq] at h
                    subst h
                    exact List.mem_cons_of_mem j0 (ih js' hr hsr)

theorem init_group_no_error (group : String) (now : PyDateTime)
    (subs : List Subscription) (js : List Job)
    (h : init_group group now subs = .ok js) (s : Subscription)
    (hs : s ∈ subs) : ∃ r, arm_sub group now s = .ok r := by
  induction subs generalizing js with
  | nil => simp at hs
  | cons t rest ih =>
      unfold init_group at h
      cases hat : arm_sub group now t with
      | error e => rw [hat] at h; simp at h
      | ok o =>
          rw [hat] at h
          rcases List.mem_cons.mp hs with hst | hsr
          · subst hst
            exact ⟨o, hat⟩
          · cases o with
            | none => exact ih js h hsr
            | some j0 =>
                cases hr : init_group group now rest with
                | error e => rw [hr] at h; simp [Except.map] at h
                | ok js' => exact ih js' hr hsr

theorem init_scheduler_group (now : PyDateTime) (st : Store) (g : String)
    (subs : List Subscription) (jobs : List Job)
    (h : init_scheduler now st = .ok jobs) (hlk : st.lookup g = some subs) :
    ∃ js, init_group g now subs = .ok js ∧ ∀ j ∈ js, j ∈ jobs := by
  induction st generalizing jobs with
  | nil => simp [List.lookup] at hlk
  | cons p rest ih =>
      obtain ⟨g', subs'⟩ := p
      unfold init_scheduler at h
      cases hg : init_group g' now subs' with
      | error e => rw [hg] at h; simp at h
      | ok js1 =>
          rw [hg] at h
          cases hr : init_scheduler now rest with
          | error e => rw [hr] at h; simp [Except.map] at h
          | ok js2 =>
              rw [hr] at h
              simp only [Except.map, Except.ok.injEq] at h
              subst h
              by_cases hgg : g' = g
              · subst hgg
                rw [show List.lookup g' ((g', subs') :: rest)
                    = some subs' from by simp [List.lookup]] at hlk
                obtain rfl : subs' = subs := by simpa using hlk
                exact ⟨js1, hg, fun j hj => List.mem_append_left js2 hj⟩
              · have hlk' : List.lookup g rest = some subs := by
                  have hb : (g == g') = false :=
                    beq_eq_false_iff_ne.mpr (fun he => hgg he.symm)
                  simpa [List.lookup, hb] using hlk
                obtain ⟨js, hjs, hsub⟩ := ih js2 hr hlk'
                exact ⟨js, hjs, fun j hj => List.mem_append_right js1 (hsub j hj)⟩

theorem init_scheduler_all (now : PyDateTime) (st : Store) (jobs : List Job)
    (h : init_scheduler now st = .ok jobs) :
    ∀ j ∈ jobs, j.graceTime = 60 ∧ check_is_outdated j.sub now = false := by
  induction st generalizing jobs with
  | nil =>
      unfold init_scheduler at h
      simp only [Except.ok.injEq] at h
      subst h
      intro j hj
      simp at hj
  | cons p rest ih =>
      obtain ⟨g', subs'⟩ := p
      unfold init_scheduler at h
      cases hg : init_group g' now subs' with
      | error e => rw [hg] at h; simp at h
      | ok js1 =>
          rw [hg] at h
          cases hr : init_scheduler now rest with
          | error e => rw [hr] at h; simp [Except.map] at h
          | ok js2 =>
              rw [hr] at h
              simp only [Except.map, Except.ok.injEq] at h
              subst h
              intro j hj
              rcases List.mem_append.mp hj with hj1 | hj2
              · obtain ⟨s, _, ha⟩ := init_group_all g' now subs' js1 hg j hj1
                obtain ⟨hsub, _, hgr, hout⟩ :=
                  arm_sub_ok_some g' now s j ha
                rw [hsub]
                exact ⟨hgr, hout⟩
              · exact ih js2 hr j hj2

theorem Store.lookup_eq_get (st : Store) (k : String)
    (h : Store.get st k ≠ []) : st.lookup k = some (Store.get st k) := by
  unfold Store.get at *
  cases hl : st.lookup k with
  | none => rw [hl] at h; exact absurd rfl h
  | some v => rfl

theorem decodeSub_encodeSub (s : Subscription) (h : s.datetime = none) :
    decodeSub (encodeSub s) = some s := by
  obtain ⟨text, cron, cron_h, datetime, id, city⟩ := s
  cases datetime with
  | some dt => simp at h
  | none => cases cron <;> cases cron_h <;> rfl

theorem decodeSubs_encode (l : List Subscription)
    (h : ∀ s ∈ l, s.datetime = none) :
    decodeSubs (l.map encodeSub) = some l := by
  induction l with
  | nil => rfl
  | cons s rest ih =>
      rw [List.map_cons]
      unfold decodeSubs
      rw [decodeSub_encodeSub s (h s (List.mem_cons_self s rest)),
        ih (fun t ht => h t (List.mem_cons_of_mem s ht))]

theorem decodePairs_encode : ∀ (st : Store),
    (∀ p ∈ st, ∀ s ∈ p.2, s.datetime = none) →
    decodePairs (st.map (fun p => (p.1, JVal.arr (p.2.map encodeSub)))) = some st
  | [], _ => rfl
  | (k, subs) :: rest, h => by
      rw [List.map_cons]
      unfold decodePairs
      dsimp only
      rw [decodeSubs_encode subs
          (fun s hs => h (k, subs) (List.mem_cons_self _ _) s hs),
        decodePairs_encode rest
          (fun q hq s hs => h q (List.mem_cons_of_mem _ hq) s hs)]

theorem load_save_roundtrip (st : Store)
    (h : ∀ p ∈ st, ∀ s ∈ p.2, s.datetime = none) :
    load_data (save_data st) = some st := by
  unfold save_data load_data
  exact decodePairs_encode st h

theorem insertAppend_datetime_none (st : Store) (k : String) (d : Subscription)
    (hrec : ∀ p ∈ st, ∀ s ∈ p.2, s.datetime = none) (hd : d.datetime = none) :
    ∀ p ∈ Store.insertAppend st k d, ∀ s ∈ p.2, s.datetime = none := by
  unfold Store.insertAppend
  cases hA : st.any (fun p => p.1 == k) with
  | true =>
      simp only [if_pos rfl]
      intro p hp s hs
      obtain ⟨q, hq, hfq⟩ := List.mem_map.mp hp
      by_cases hqk : (q.1 == k) = true
      · rw [if_pos hqk] at hfq
        subst hfq
        simp only at hs
        rcases List.mem_append.mp hs with hs1 | hs2
        · exact hrec q hq s hs1
        · rw [List.mem_singleton.mp hs2]
          exact hd
      · rw [if_neg hqk] at hfq
        subst hfq
        exact hrec q hq s hs
  | false =>
      simp only [Bool.false_eq_true, if_false]
      intro p hp s hs
      rcases List.mem_append.mp hp with hp1 | hp2
      · exact hrec p hp1 s hs
      · rw [List.mem_singleton.mp hp2] at hs
        simp only at hs
        rw [List.mem_singleton.mp hs]
        exact hd

/-- C1 (counterexample): the claim says every input that does not split
into exactly five whitespace-separated fields is rejected with
`MalformedRecurrence`; but `"0 9 * * * x"` splits into six
whitespace-separated fields and `_parse_cron_expr` still succeeds,
silently using only the first five. -/
theorem parse_cron_six_fields_accepted :
    (wsFields "0 9 * * * x").length ≠ 5 ∧
    parse_cron_expr "0 9 * * * x"
      = .ok { minute := "0", hour := "9", day := "*", month := "*",
              day_of_week := "*" } := by
  constructor
  · unfold wsFields
    simp only [String.split_of_valid]
    decide
  · unfold parse_cron_expr
    simp only [String.split_of_valid]
    rfl

/-- C1 (amended): `_parse_cron_expr` splits its input on single space
characters (keeping empty pieces); when that yields fewer than five
pieces it fails with an `IndexError` (surfaced as failure of the
subscribe request), and when it yields five or more pieces it succeeds,
returning exactly the first five pieces verbatim in
minute/hour/day/month/day_of_week order and ignoring the rest. -/
theorem parse_cron_spec (s : String) :
    ((s.split (fun c => c == ' ')).length < 5 →
      parse_cron_expr s = .error "IndexError: list index out of range") ∧
    (5 ≤ (s.split (fun c => c == ' ')).length →
      parse_cron_expr s
        = .ok { minute := (s.split (fun c => c == ' ')).getD 0 "",
                hour := (s.split (fun c => c == ' ')).getD 1 "",
                day := (s.split (fun c => c == ' ')).getD 2 "",
                month := (s.split (fun c => c == ' ')).getD 3 "",
                day_of_week := (s.split (fun c => c == ' ')).getD 4 "" }) := by
  constructor
  · intro h
    unfold parse_cron_expr
    rw [dif_neg (by omega)]
  · intro h5
    unfold parse_cron_expr
    rw [dif_pos h5]
    rw [List.getD_eq_getElem _ "" (by omega), List.getD_eq_getElem _ "" (by omega),
      List.getD_eq_getElem _ "" (by omega), List.getD_eq_getElem _ "" (by omega),
      List.getD_eq_getElem _ "" (by omega)]

/-- Witness for the amended C1, at the concrete inputs `"0 9 * * *"`
(five fields, accepted verbatim) and `"0 9"` (two fields, rejected). -/
theorem parse_cron_spec_witness :
    parse_cron_expr "0 9 * * *"
      = .ok { minute := "0", hour := "9", day := "*", month := "*",
              day_of_week := "*" } ∧
    parse_cron_expr "0 9" = .error "IndexError: list index out of range" := by
  constructor
  · have h := (parse_cron_spec "0 9 * * *").2
      (by simp only [String.split_of_valid]; decide)
    rw [h]
    simp only [String.split_of_valid]
    rfl
  · exact (parse_cron_spec "0 9").1
      (by simp only [String.split_of_valid]; decide)

/-- C10: every entry created through the `weather_subscribe sub` command
is appended to the caller group's sequence as a recurring entry with
exactly the fields `text` (the literal `"天气预报"`), `cron`, `cron_h`,
`id`, `city` — and never a one-shot `datetime` field.  One-shot entries
can therefore only enter via a pre-existing ledger loaded at startup. -/
theorem weather_subscribe_always_recurring (st : Store) (jobs : List Job)
    (origin city cron_expression human_readable_cron newId : String) :
    Store.get (weather_subscribe st jobs origin city cron_expression
        human_readable_cron newId).store origin
      = Store.get st origin ++
        [{ text := "天气预报", cron := some cron_expression,
           cron_h := some human_readable_cron, datetime := none,
           id := newId, city := city }] := by
  unfold weather_subscribe
  cases hp : parse_cron_expr cron_expression <;>
    simpa using Store.get_insertAppend st origin _

/-- C8: every exception raised inside a firing of `_subscribe_callback`
is caught by its `try/except` and logged — the handler always returns
normally (first conjunct), and in particular a send failure in text mode
ends as a logged error, not a propagated exception and not a retry
(second conjunct). -/
theorem subscribe_callback_never_raises (send_mode : String)
    (fetch : Option (List String)) (render llm : Except String String)
    (fmtw : String → String) (send : Except String Unit) :
    (∃ r, subscribe_callback send_mode fetch render llm fmtw send = .ok r) ∧
    (∀ d0 e : String, ∀ render' llm' : Except String String,
      ∀ fmtw' : String → String,
      subscribe_callback "text" (some [d0]) render' llm' fmtw' (.error e)
        = .ok (.errorLogged e)) := by
  constructor
  · unfold subscribe_callback
    cases callback_body send_mode fetch render llm fmtw send with
    | error e => exact ⟨.errorLogged e, rfl⟩
    | ok r => exact ⟨r, rfl⟩
  · intro d0 e render' llm' fmtw'
    rfl

/-- C4: `subscribe_rm` with an empty upcoming list replies with the
empty-store error text, and with a nonempty upcoming list but a 1-based
position below 1 or above the list length replies with the
index-out-of-range error text; in both failure cases the store, the
scheduler job table and the persisted ledger are untouched
(`persisted = false`, nothing mutated). -/
theorem subscribe_rm_error_cases (st : Store) (jobs : List Job)
    (now : PyDateTime) (origin : String) (index : Int) :
    ((get_upcoming_subscribe st now origin).isEmpty = true →
      subscribe_rm st jobs now origin index
        = { store := st, jobs := jobs, messages := ["没有待办事项。"],
            persisted := false }) ∧
    ((get_upcoming_subscribe st now origin).isEmpty = false →
      (index < 1 ∨ index > (get_upcoming_subscribe st now origin).length) →
      subscribe_rm st jobs now origin index
        = { store := st, jobs := jobs, messages := ["索引越界。"],
            persisted := false }) := by
  constructor
  · intro h
    unfold subscribe_rm
    rw [if_pos h]
  · intro h hidx
    unfold subscribe_rm
    rw [if_neg (by simp [h]), if_pos hidx]

/-- Witness for C4 at concrete inputs: removing from a group with no
subscriptions, and removing position 0 from a one-entry group. -/
theorem subscribe_rm_error_cases_witness :
    subscribe_rm [] [] ⟨2026, 1, 1, 0, 0⟩ "g" 1
      = { store := [], jobs := [], messages := ["没有待办事项。"],
          persisted := false } ∧
    subscribe_rm
        [("g", [{ text := "天气预报", cron := some "0 9 * * *",
                  cron_h := some "每天9点", datetime := none, id := "a",
                  city := "上海" }])] [] ⟨2026, 1, 1, 0, 0⟩ "g" 0
      = { store := [("g", [{ text := "天气预报", cron := some "0 9 * * *",
                             cron_h := some "每天9点", datetime := none,
                             id := "a", city := "上海" }])],
          jobs := [], messages := ["索引越界。"], persisted := false } := by
  constructor
  · exact (subscribe_rm_error_cases [] [] ⟨2026, 1, 1, 0, 0⟩ "g" 1).1 (by rfl)
  · exact (subscribe_rm_error_cases _ [] ⟨2026, 1, 1, 0, 0⟩ "g" 0).2
      (by rfl) (by decide)

/-- C5: the upcoming view of a group keeps exactly the stored entries
with no one-shot timestamp or a timestamp `>=` now (an entry firing
exactly now is still included, since `le now now` holds), preserves the
stored order (it is a sublist of the stored sequence), and is empty for
a group absent from the store. -/
theorem get_upcoming_spec (st : Store) (now : PyDateTime) (g : String) :
    (get_upcoming_subscribe st now g).Sublist (Store.get st g) ∧
    (∀ s : Subscription, s ∈ get_upcoming_subscribe st now g ↔
      (s ∈ Store.get st g ∧ (s.datetime = none ∨
        ∃ dt, s.datetime = some dt ∧ PyDateTime.le now dt = true))) ∧
    (PyDateTime.le now now = true) ∧
    (st.all (fun p => !(p.1 == g)) = true →
      get_upcoming_subscribe st now g = []) := by
  refine ⟨?_, ?_, ?_, ?_⟩
  · rw [get_upcoming_eq_filter]
    exact List.filter_sublist _
  · intro s
    rw [get_upcoming_eq_filter, List.mem_filter]
    constructor
    · rintro ⟨hm, hp⟩
      refine ⟨hm, ?_⟩
      unfold upPred at hp
      cases hdt : s.datetime with
      | none => exact Or.inl rfl
      | some dt =>
          refine Or.inr ⟨dt, rfl, ?_⟩
          rw [hdt] at hp
          exact hp
    · rintro ⟨hm, hp⟩
      refine ⟨hm, ?_⟩
      unfold upPred
      rcases hp with hnone | ⟨dt, hdt, hle⟩
      · rw [hnone]
      · rw [hdt]
        exact hle
  · unfold PyDateTime.le PyDateTime.lt
    simp
  · intro h
    have hget : Store.get st g = [] := by
      apply Store.get_of_any_eq_false
      rw [List.any_eq_false]
      intro p hp
      have hb := List.all_eq_true.mp h p hp
      simp only [Bool.not_eq_true'] at hb
      simp [hb]
    rw [get_upcoming_eq_filter, hget]
    rfl

/-- Witness for C5: an entry timed exactly at now stays in the upcoming
view, and a group absent from the store yields the empty view. -/
theorem get_upcoming_spec_witness :
    ({ text := "天气预报", cron := none, cron_h := none,
       datetime := some ⟨2026, 1, 1, 9, 0⟩, id := "a", city := "上海" }
        : Subscription) ∈
      get_upcoming_subscribe
        [("g", [{ text := "天气预报", cron := none, cron_h := none,
                  datetime := some ⟨2026, 1, 1, 9, 0⟩, id := "a",
                  city := "上海" }])] ⟨2026, 1, 1, 9, 0⟩ "g" ∧
    get_upcoming_subscribe
        [("h", [{ text := "天气预报", cron := none, cron_h := none,
                  datetime := some ⟨2026, 1, 1, 9, 0⟩, id := "a",
                  city := "上海" }])] ⟨2026, 1, 1, 9, 0⟩ "g" = [] := by
  constructor
  · exact ((get_upcoming_spec _ ⟨2026, 1, 1, 9, 0⟩ "g").2.1 _).mpr
      ⟨by decide, Or.inr ⟨⟨2026, 1, 1, 9, 0⟩, rfl, by decide⟩⟩
  · exact (get_upcoming_spec _ ⟨2026, 1, 1, 9, 0⟩ "g").2.2.2 (by decide)

/-- C3: for a valid 1-based position into the freshly computed upcoming
view (and unique ids within the group, the store invariant), the remove
command deletes from the group's full stored sequence exactly the
entries carrying the id of the p-th upcoming element — i.e. that single
entry — keeping all remaining entries in their original relative order,
and reaches the persist step. -/
theorem subscribe_rm_valid (st : Store) (jobs : List Job) (now : PyDateTime)
    (origin : String) (index : Int)
    (hnodup : ((Store.get st origin).map Subscription.id).Nodup)
    (h1 : 1 ≤ index)
    (h2 : index ≤ (get_upcoming_subscribe st now origin).length) :
    Store.get (subscribe_rm st jobs now origin index).store origin
      = (Store.get st origin).filter
          (fun s => !(s.id ==
            ((get_upcoming_subscribe st now origin).getD
              (index - 1).toNat default).id)) ∧
    (subscribe_rm st jobs now origin index).persisted = true := by
  have hupne : get_upcoming_subscribe st now origin ≠ [] := by
    intro hz
    rw [hz] at h2
    simp at h2
    omega
  have hempty : (get_upcoming_subscribe st now origin).isEmpty = false := by
    cases hE : (get_upcoming_subscribe st now origin).isEmpty with
    | false => rfl
    | true => exact absurd (List.isEmpty_iff.mp hE) hupne
  have hgetne : Store.get st origin ≠ [] := by
    intro hz
    apply hupne
    rw [get_upcoming_eq_filter, hz]
    rfl
  have hany := Store.any_of_get_ne_nil st origin hgetne
  have hcount := countP_id_le_one_of_nodup
    ((get_upcoming_subscribe st now origin).getD (index - 1).toNat default).id
    (Store.get st origin) hnodup
  have hloop : rmLoop
      ((get_upcoming_subscribe st now origin).getD (index - 1).toNat default).id
      0 (Store.get st origin)
      = (Store.get st origin).filter
          (fun s => !(s.id ==
            ((get_upcoming_subscribe st now origin).getD
              (index - 1).toNat default).id)) := by
    rw [rmLoop_zero_eq_rmAux]
    exact rmAux_of_countP_le_one _ _ hcount
  unfold subscribe_rm
  rw [if_neg (by simp [hempty]), if_neg (by omega)]
  dsimp only
  cases hsj : sched_remove_job jobs
      ((get_upcoming_subscribe st now origin).getD (index - 1).toNat default).id with
  | ok jobs' =>
      constructor
      · rw [Store.get_set st origin _ hany, hloop]
      · rfl
  | error e =>
      constructor
      · rw [Store.get_set st origin _ hany, hloop]
      · rfl

/-- Witness for C3: removing position 1 from a three-entry upcoming list
removes the first-listed entry and leaves the remaining two in their
original relative order, with the ledger persisted. -/
theorem subscribe_rm_valid_witness :
    Store.get (subscribe_rm
        [("g", [{ text := "天气预报", cron := some "0 9 * * *",
                  cron_h := some "每天9点", datetime := none, id := "a",
                  city := "上海" },
                { text := "天气预报", cron := some "0 8 * * *",
                  cron_h := some "每天8点", datetime := none, id := "b",
                  city := "北京" },
                { text := "天气预报", cron := some "0 7 * * *",
                  cron_h := some "每天7点", datetime := none, id := "c",
                  city := "杭州" }])] [] ⟨2026, 1, 1, 0, 0⟩ "g" 1).store "g"
      = [{ text := "天气预报", cron := some "0 8 * * *",
           cron_h := some "每天8点", datetime := none, id := "b",
           city := "北京" },
         { text := "天气预报", cron := some "0 7 * * *",
           cron_h := some "每天7点", datetime := none, id := "c",
           city := "杭州" }] ∧
    (subscribe_rm
        [("g", [{ text := "天气预报", cron := some "0 9 * * *",
                  cron_h := some "每天9点", datetime := none, id := "a",
                  city := "上海" },
                { text := "天气预报", cron := some "0 8 * * *",
                  cron_h := some "每天8点", datetime := none, id := "b",
                  city := "北京" },
                { text := "天气预报", cron := some "0 7 * * *",
                  cron_h := some "每天7点", datetime := none, id := "c",
                  city := "杭州" }])] [] ⟨2026, 1, 1, 0, 0⟩ "g" 1).persisted
      = true := by
  have h := subscribe_rm_valid
    [("g", [{ text := "天气预报", cron := some "0 9 * * *",
              cron_h := some "每天9点", datetime := none, id := "a",
              city := "上海" },
            { text := "天气预报", cron := some "0 8 * * *",
              cron_h := some "每天8点", datetime := none, id := "b",
              city := "北京" },
            { text := "天气预报", cron := some "0 7 * * *",
              cron_h := some "每天7点", datetime := none, id := "c",
              city := "杭州" }])] [] ⟨2026, 1, 1, 0, 0⟩ "g" 1
    (by decide) (by decide) (by decide)
  exact ⟨h.1.trans (by rfl), h.2⟩

/-- C7 (counterexample): the claim says a failed trigger removal is
logged but "neither raised nor surfaced to the user"; yet with the
trigger absent from the scheduler the handler's user-facing replies
include a message reporting the failed scheduled-job removal (before
the success reply), so the failure IS surfaced to the user. -/
theorem subscribe_rm_disarm_failure_surfaced :
    (subscribe_rm
        [("g", [{ text := "天气预报", cron := some "0 9 * * *",
                  cron_h := some "每天9点", datetime := none, id := "a",
                  city := "上海" }])] [] ⟨2026, 1, 1, 0, 0⟩ "g" 1).messages
      = ["成功移除对应的待办事项。删除定时任务失败: No job by the id of a was found 可能需要重启 AstrBot 以取消该提醒任务。",
         "成功删除待办事项：\n天气预报"] := by
  rfl

/-- C7 (amended): when remove is invoked on a valid position but the
live trigger is already absent, the failure is logged and additionally
reported to the user in an extra notice reply — but not raised — and
the store-level removal and the persist step still complete exactly as
in the success case (the scheduler job table is left unchanged). -/
theorem subscribe_rm_disarm_failure_completes (st : Store) (jobs : List Job)
    (now : PyDateTime) (origin : String) (index : Int)
    (hnodup : ((Store.get st origin).map Subscription.id).Nodup)
    (h1 : 1 ≤ index)
    (h2 : index ≤ (get_upcoming_subscribe st now origin).length)
    (habsent : ∀ j ∈ jobs, ¬ j.id =
      ((get_upcoming_subscribe st now origin).getD
        (index - 1).toNat default).id) :
    Store.get (subscribe_rm st jobs now origin index).store origin
      = (Store.get st origin).filter
          (fun s => !(s.id ==
            ((get_upcoming_subscribe st now origin).getD
              (index - 1).toNat default).id)) ∧
    (subscribe_rm st jobs now origin index).persisted = true ∧
    (subscribe_rm st jobs now origin index).jobs = jobs ∧
    (subscribe_rm st jobs now origin index).messages
      = ["成功移除对应的待办事项。删除定时任务失败: No job by the id of " ++
           ((get_upcoming_subscribe st now origin).getD
             (index - 1).toNat default).id ++
           " was found 可能需要重启 AstrBot 以取消该提醒任务。",
         "成功删除待办事项：\n" ++
           ((get_upcoming_subscribe st now origin).getD
             (index - 1).toNat default).text] := by
  have hupne : get_upcoming_subscribe st now origin ≠ [] := by
    intro hz
    rw [hz] at h2
    simp at h2
    omega
  have hempty : (get_upcoming_subscribe st now origin).isEmpty = false := by
    cases hE : (get_upcoming_subscribe st now origin).isEmpty with
    | false => rfl
    | true => exact absurd (List.isEmpty_iff.mp hE) hupne
  have hgetne : Store.get st origin ≠ [] := by
    intro hz
    apply hupne
    rw [get_upcoming_eq_filter, hz]
    rfl
  have hany := Store.any_of_get_ne_nil st origin hgetne
  have hcount := countP_id_le_one_of_nodup
    ((get_upcoming_subscribe st now origin).getD (index - 1).toNat default).id
    (Store.get st origin) hnodup
  have hloop : rmLoop
      ((get_upcoming_subscribe st now origin).getD (index - 1).toNat default).id
      0 (Store.get st origin)
      = (Store.get st origin).filter
          (fun s => !(s.id ==
            ((get_upcoming_subscribe st now origin).getD
              (index - 1).toNat default).id)) := by
    rw [rmLoop_zero_eq_rmAux]
    exact rmAux_of_countP_le_one _ _ hcount
  have hanyjobs : (jobs.any (fun j => j.id ==
      ((get_upcoming_subscribe st now origin).getD
        (index - 1).toNat default).id)) = false := by
    rw [List.any_eq_false]
    intro j hj
    intro hb
    exact habsent j hj (by simpa using hb)
  have hsj : sched_remove_job jobs
      ((get_upcoming_subscribe st now origin).getD (index - 1).toNat default).id
      = .error ("No job by the id of " ++
          ((get_upcoming_subscribe st now origin).getD
            (index - 1).toNat default).id ++ " was found") := by
    unfold sched_remove_job
    rw [hanyjobs]
    simp
  unfold subscribe_rm
  rw [if_neg (by simp [hempty]), if_neg (by omega)]
  dsimp only
  rw [hsj]
  dsimp only
  refine ⟨?_, rfl, rfl, ?_⟩
  · rw [Store.get_set st origin _ hany, hloop]
  · simp [String.append_assoc]
    rw [← String.append_assoc]
    have hlit : "成功移除对应的待办事项。删除定时任务失败: " ++ "No job by the id of "
        = "成功移除对应的待办事项。删除定时任务失败: No job by the id of " := by decide
    rw [hlit]

/-- Witness for the amended C7, at a concrete one-entry store with an
empty scheduler job table (the trigger is already gone). -/
theorem subscribe_rm_disarm_failure_completes_witness :
    Store.get (subscribe_rm
        [("g", [{ text := "天气预报", cron := some "0 8 * * *",
                  cron_h := some "每天8点", datetime := none, id := "b",
                  city := "北京" }])] [] ⟨2026, 1, 1, 0, 0⟩ "g" 1).store "g"
      = [] ∧
    (subscribe_rm
        [("g", [{ text := "天气预报", cron := some "0 8 * * *",
                  cron_h := some "每天8点", datetime := none, id := "b",
                  city := "北京" }])] [] ⟨2026, 1, 1, 0, 0⟩ "g" 1).persisted
      = true := by
  have h := subscribe_rm_disarm_failure_completes
    [("g", [{ text := "天气预报", cron := some "0 8 * * *",
              cron_h := some "每天8点", datetime := none, id := "b",
              city := "北京" }])] [] ⟨2026, 1, 1, 0, 0⟩ "g" 1
    (by decide) (by decide) (by decide) (by intro j hj; simp at hj)
  exact ⟨h.1.trans (by rfl), h.2.1⟩

theorem parse_cron_daily :
    parse_cron_expr "0 9 * * *"
      = .ok { minute := "0", hour := "9", day := "*", month := "*",
              day_of_week := "*" } := by
  unfold parse_cron_expr
  simp only [String.split_of_valid]
  rfl

/-- C9: every trigger armed by the scheduler core carries a 60-second
misfire grace window — all jobs armed during recovery and the job added
at subscribe time have `misfire_grace_time = 60` — and under the
spec-modelled engine misfire semantics a trigger due at `T` still fires
when the process is back at `T + 30` seconds and no longer fires at
`T + 90` seconds. -/
theorem armed_triggers_grace_60 (now : PyDateTime) (st : Store)
    (jobs : List Job) (hinit : init_scheduler now st = .ok jobs) :
    (∀ j ∈ jobs, j.graceTime = 60) ∧
    (∀ (st0 : Store) (jb : List Job) (origin city cron ch newId : String),
      ∀ j ∈ (weather_subscribe st0 jb origin city cron ch newId).jobs,
        j ∈ jb ∨ j.graceTime = 60) ∧
    (∀ T : Nat, misfire_fires T (T + 30) 60 = true ∧
      misfire_fires T (T + 90) 60 = false) := by
  refine ⟨fun j hj => (init_scheduler_all now st jobs hinit j hj).1, ?_, ?_⟩
  · intro st0 jb origin city cron ch newId j hj
    unfold weather_subscribe at hj
    cases hp : parse_cron_expr cron with
    | error e =>
        rw [hp] at hj
        exact Or.inl hj
    | ok f =>
        rw [hp] at hj
        simp only at hj
        rcases List.mem_append.mp hj with hj | hj
        · exact Or.inl hj
        · right
          rw [List.mem_singleton.mp hj]
  · intro T
    constructor
    · unfold misfire_fires
      simp
    · unfold misfire_fires
      simp

/-- Witness for C9: the empty recovery discharges the hypothesis, and
the modelled grace semantics is exercised at `T = 1000`. -/
theorem armed_triggers_grace_60_witness :
    misfire_fires 1000 1030 60 = true ∧ misfire_fires 1000 1090 60 = false := by
  have h := armed_triggers_grace_60 ⟨2026, 1, 1, 0, 0⟩ [] [] rfl
  have h1000 := h.2.2 1000
  simpa using h1000

/-- C2: during startup recovery, a one-shot entry whose timestamp is
strictly before now is skipped — no armed job carries it, it is
excluded from the upcoming view, and it stays in the store (the
recovery pass never deletes or persists anything) — while every
recurring entry and every one-shot entry whose timestamp is not in the
past is armed for its group. -/
theorem init_scheduler_recovery (now : PyDateTime) (st : Store)
    (jobs : List Job) (g : String)
    (hok : init_scheduler now st = .ok jobs) :
    (∀ s ∈ Store.get st g, ∀ dt, s.datetime = some dt →
      PyDateTime.lt dt now = true →
        (∀ j ∈ jobs, j.sub ≠ s) ∧ s ∉ get_upcoming_subscribe st now g ∧
        s ∈ Store.get st g) ∧
    (∀ s ∈ Store.get st g, s.datetime = none → s.cron.isSome = true →
      ∃ j ∈ jobs, j.group = g ∧ j.sub = s ∧ j.graceTime = 60) ∧
    (∀ s ∈ Store.get st g, ∀ dt, s.datetime = some dt →
      PyDateTime.lt dt now = false →
      ∃ j ∈ jobs, j.group = g ∧ j.sub = s ∧ j.graceTime = 60) := by
  refine ⟨?_, ?_, ?_⟩
  · intro s hs dt hdt hlt
    refine ⟨?_, ?_, hs⟩
    · intro j hj heq
      have hout := (init_scheduler_all now st jobs hok j hj).2
      rw [heq] at hout
      simp only [check_is_outdated, hdt] at hout
      rw [hlt] at hout
      simp at hout
    · rw [get_upcoming_eq_filter]
      intro hmem
      have hp := (List.mem_filter.mp hmem).2
      unfold upPred at hp
      simp only [hdt] at hp
      unfold PyDateTime.le at hp
      rw [hlt] at hp
      simp at hp
  · intro s hs hdtn hcs
    have hgetne : Store.get st g ≠ [] := by
      intro hz
      rw [hz] at hs
      simp at hs
    have hlk := Store.lookup_eq_get st g hgetne
    obtain ⟨js, hjs, hsubset⟩ := init_scheduler_group now st g _ jobs hok hlk
    obtain ⟨c, hc⟩ := Option.isSome_iff_exists.mp hcs
    obtain ⟨r, hr⟩ := init_group_no_error g now _ js hjs s hs
    unfold arm_sub at hr
    simp only [hdtn, hc] at hr
    cases hp : parse_cron_expr c with
    | error e =>
        rw [hp] at hr
        simp [Except.map] at hr
    | ok f =>
        have harm : arm_sub g now s
            = .ok (some { id := s.id, trigger := .cron f, graceTime := 60,
                          group := g, sub := s }) := by
          unfold arm_sub
          simp [hdtn, hc, hp, Except.map]
        have hmem := init_group_arm g now _ js hjs s hs _ harm
        exact ⟨_, hsubset _ hmem, rfl, rfl, rfl⟩
  · intro s hs dt hdt hflt
    have hgetne : Store.get st g ≠ [] := by
      intro hz
      rw [hz] at hs
      simp at hs
    have hlk := Store.lookup_eq_get st g hgetne
    obtain ⟨js, hjs, hsubset⟩ := init_scheduler_group now st g _ jobs hok hlk
    have hout : check_is_outdated s now = false := by
      simp only [check_is_outdated, hdt]
      exact hflt
    have harm : arm_sub g now s
        = .ok (some { id := s.id, trigger := .date dt, graceTime := 60,
                      group := g, sub := s }) := by
      unfold arm_sub
      simp only [hdt, hout, Bool.false_eq_true, if_false]
    have hmem := init_group_arm g now _ js hjs s hs _ harm
    exact ⟨_, hsubset _ hmem, rfl, rfl, rfl⟩

/-- Witness for C2, at a concrete loaded store holding a far-past
one-shot entry, a recurring entry and a future one-shot entry: recovery
skips the past entry (not armed, excluded from the upcoming view, still
stored) and arms the other two. -/
theorem init_scheduler_recovery_witness :
    ({ text := "天气预报", cron := none, cron_h := none,
       datetime := some ⟨2020, 1, 1, 0, 0⟩, id := "p", city := "上海" }
        : Subscription) ∉
      get_upcoming_subscribe
        [("g", [{ text := "天气预报", cron := none, cron_h := none,
                  datetime := some ⟨2020, 1, 1, 0, 0⟩, id := "p",
                  city := "上海" },
                { text := "天气预报", cron := some "0 9 * * *",
                  cron_h := some "每天9点", datetime := none, id := "c",
                  city := "上海" },
                { text := "天气预报", cron := none, cron_h := none,
                  datetime := some ⟨2030, 1, 1, 9, 0⟩, id := "f",
                  city := "上海" }])] ⟨2026, 1, 1, 12, 0⟩ "g" ∧
    ({ text := "天气预报", cron := none, cron_h := none,
       datetime := some ⟨2020, 1, 1, 0, 0⟩, id := "p", city := "上海" }
        : Subscription) ∈
      Store.get
        [("g", [{ text := "天气预报", cron := none, cron_h := none,
                  datetime := some ⟨2020, 1, 1, 0, 0⟩, id := "p",
                  city := "上海" },
                { text := "天气预报", cron := some "0 9 * * *",
                  cron_h := some "每天9点", datetime := none, id := "c",
                  city := "上海" },
                { text := "天气预报", cron := none, cron_h := none,
                  datetime := some ⟨2030, 1, 1, 9, 0⟩, id := "f",
                  city := "上海" }])] "g" ∧
    (∃ j ∈ ([{ id := "c", trigger := Trigger.cron ⟨"0", "9", "*", "*", "*"⟩,
               graceTime := 60, group := "g",
               sub := { text := "天气预报", cron := some "0 9 * * *",
                        cron_h := some "每天9点", datetime := none, id := "c",
                        city := "上海" } },
             { id := "f", trigger := Trigger.date ⟨2030, 1, 1, 9, 0⟩,
               graceTime := 60, group := "g",
               sub := { text := "天气预报", cron := none, cron_h := none,
                        datetime := some ⟨2030, 1, 1, 9, 0⟩, id := "f",
                        city := "上海" } }] : List Job),
      j.group = "g" ∧
      j.sub = ({ text := "天气预报", cron := some "0 9 * * *",
                 cron_h := some "每天9点", datetime := none, id := "c",
                 city := "上海" } : Subscription) ∧ j.graceTime = 60) := by
  have hok :
      init_scheduler ⟨2026, 1, 1, 12, 0⟩
        [("g", [{ text := "天气预报", cron := none, cron_h := none,
                  datetime := some ⟨2020, 1, 1, 0, 0⟩, id := "p",
                  city := "上海" },
                { text := "天气预报", cron := some "0 9 * * *",
                  cron_h := some "每天9点", datetime := none, id := "c",
                  city := "上海" },
                { text := "天气预报", cron := none, cron_h := none,
                  datetime := some ⟨2030, 1, 1, 9, 0⟩, id := "f",
                  city := "上海" }])]
        = .ok [{ id := "c", trigger := .cron ⟨"0", "9", "*", "*", "*"⟩,
                 graceTime := 60, group := "g",
                 sub := { text := "天气预报", cron := some "0 9 * * *",
                          cron_h := some "每天9点", datetime := none,
                          id := "c", city := "上海" } },
               { id := "f", trigger := .date ⟨2030, 1, 1, 9, 0⟩,
                 graceTime := 60, group := "g",
                 sub := { text := "天气预报", cron := none, cron_h := none,
                          datetime := some ⟨2030, 1, 1, 9, 0⟩, id := "f",
                          city := "上海" } }] := by
    simp [init_scheduler, init_group, arm_sub, check_is_outdated,
      PyDateTime.lt, parse_cron_daily, Except.map]
  have h := init_scheduler_recovery ⟨2026, 1, 1, 12, 0⟩ _ _ "g" hok
  have hpast := h.1 ({ text := "天气预报", cron := none, cron_h := none,
                       datetime := some ⟨2020, 1, 1, 0, 0⟩, id := "p",
                       city := "上海" } : Subscription)
    (by decide) ⟨2020, 1, 1, 0, 0⟩ rfl (by decide)
  have hcron := h.2.1 ({ text := "天气预报", cron := some "0 9 * * *",
                         cron_h := some "每天9点", datetime := none,
                         id := "c", city := "上海" } : Subscription)
    (by decide) rfl rfl
  exact ⟨hpast.2.1, by decide, hcron⟩

/-- C6: for any store whose entries are all recurring (which covers
every store built by add operations, since the subscribe command only
ever appends recurring entries), serializing the whole ledger and
reloading it reproduces the store exactly — also after one more add —
and add followed by the upcoming view contains the added entry exactly
once (given a fresh id, as `uuid4` provides). -/
theorem add_roundtrip_and_upcoming (st : Store) (jobs : List Job)
    (now : PyDateTime) (origin city cron ch newId : String)
    (hrec : ∀ p ∈ st, ∀ s ∈ p.2, s.datetime = none)
    (hfresh : newId ∉ (Store.get st origin).map Subscription.id) :
    load_data (save_data st) = some st ∧
    load_data (save_data
        (weather_subscribe st jobs origin city cron ch newId).store)
      = some (weather_subscribe st jobs origin city cron ch newId).store ∧
    (get_upcoming_subscribe
        (weather_subscribe st jobs origin city cron ch newId).store
        now origin).count
      { text := "天气预报", cron := some cron, cron_h := some ch,
        datetime := none, id := newId, city := city } = 1 := by
  have hstore : (weather_subscribe st jobs origin city cron ch newId).store
      = Store.insertAppend st origin
          { text := "天气预报", cron := some cron, cron_h := some ch,
            datetime := none, id := newId, city := city } := by
    unfold weather_subscribe
    cases parse_cron_expr cron <;> rfl
  refine ⟨load_save_roundtrip st hrec, ?_, ?_⟩
  · rw [hstore]
    exact load_save_roundtrip _
      (insertAppend_datetime_none st origin _ hrec rfl)
  · rw [hstore, get_upcoming_eq_filter, Store.get_insertAppend,
      List.filter_append]
    rw [show List.filter (upPred now)
        [{ text := "天气预报", cron := some cron, cron_h := some ch,
           datetime := none, id := newId, city := city }]
        = [{ text := "天气预报", cron := some cron, cron_h := some ch,
             datetime := none, id := newId, city := city }] from by
      simp [upPred]]
    rw [List.count_append]
    have hnm : ({ text := "天气预报", cron := some cron,
                  cron_h := some ch, datetime := none, id := newId,
                  city := city } : Subscription) ∉
        (Store.get st origin).filter (upPred now) := by
      intro hm
      exact hfresh
        (List.mem_map_of_mem Subscription.id (List.mem_of_mem_filter hm))
    rw [List.count_eq_zero.mpr hnm]
    simp

/-- Witness for C6 at a concrete one-entry recurring store and a fresh
id: the ledger round-trips and the freshly added entry appears exactly
once in the upcoming view. -/
theorem add_roundtrip_and_upcoming_witness :
    load_data (save_data
        (weather_subscribe
          [("g", [{ text := "天气预报", cron := some "0 8 * * *",
                    cron_h := some "每天8点", datetime := none, id := "a",
                    city := "北京" }])]
          [] "g" "杭州" "0 9 * * *" "每天9点" "b").store)
      = some (weather_subscribe
          [("g", [{ text := "天气预报", cron := some "0 8 * * *",
                    cron_h := some "每天8点", datetime := none, id := "a",
                    city := "北京" }])]
          [] "g" "杭州" "0 9 * * *" "每天9点" "b").store ∧
    (get_upcoming_subscribe
        (weather_subscribe
          [("g", [{ text := "天气预报", cron := some "0 8 * * *",
                    cron_h := some "每天8点", datetime := none, id := "a",
                    city := "北京" }])]
          [] "g" "杭州" "0 9 * * *" "每天9点" "b").store
        ⟨2026, 1, 1, 0, 0⟩ "g").count
      { text := "天气预报", cron := some "0 9 * * *", cron_h := some "每天9点",
        datetime := none, id := "b", city := "杭州" } = 1 := by
  have h := add_roundtrip_and_upcoming
    [("g", [{ text := "天气预报", cron := some "0 8 * * *",
              cron_h := some "每天8点", datetime := none, id := "a",
              city := "北京" }])]
    [] ⟨2026, 1, 1, 0, 0⟩ "g" "杭州" "0 9 * * *" "每天9点" "b"
    (by decide) (by decide)
  exact ⟨h.2.1, h.2.2⟩
